import Mathlib

/-!
Verification of the building-blocks meshing example.

Shallow embedding of
  src/crates/building_blocks_procgen/src/signed_distance_fields.rs
  src/examples/bevy_meshing/mesh_generator.rs
`f32` arithmetic is modelled by real arithmetic (`ℝ`); lattice points
(`Point3i`, `Point2i`) are integer triples/pairs, converted to real points
exactly as the source converts `Point3i` to `Point3f`.
-/

noncomputable section RealGeometry

/-! ## Points (building_blocks_core prelude, as used by the source) -/

structure Point2f where
  x : ℝ
  y : ℝ

structure Point3f where
  x : ℝ
  y : ℝ
  z : ℝ

structure Point2i where
  x : ℤ
  y : ℤ
deriving DecidableEq

structure Point3i where
  x : ℤ
  y : ℤ
  z : ℤ
deriving DecidableEq

/-- The `Point3i → Point3f` conversion (`(*p).into()` in the source). -/
def toPoint3f (p : Point3i) : Point3f :=
  ⟨(p.x : ℝ), (p.y : ℝ), (p.z : ℝ)⟩

def Point3f.sub (a b : Point3f) : Point3f :=
  ⟨a.x - b.x, a.y - b.y, a.z - b.z⟩

def Point3f.dot (a b : Point3f) : ℝ :=
  a.x * b.x + a.y * b.y + a.z * b.z

/-- `Point3f::l2_distance_squared`: squared Euclidean distance, `(a-b)·(a-b)`. -/
def Point3f.l2_distance_squared (a b : Point3f) : ℝ :=
  (a.sub b).dot (a.sub b)

/-- `Point3f::xz`: the projection to the horizontal plane. -/
def Point3f.xz (a : Point3f) : Point2f :=
  ⟨a.x, a.z⟩

def Point2f.dot (a b : Point2f) : ℝ :=
  a.x * b.x + a.y * b.y

/-- `Point2f::norm`: the Euclidean norm `sqrt (a·a)`. -/
def Point2f.norm (a : Point2f) : ℝ :=
  Real.sqrt (a.dot a)

/-! ## Signed distance field constructors (signed_distance_fields.rs) -/

/-- `sphere(center, radius)` from signed_distance_fields.rs:
`pf.l2_distance_squared(&center).sqrt() - radius`. -/
def sphere (center : Point3f) (radius : ℝ) : Point3i → ℝ := fun p =>
  let pf := toPoint3f p
  Real.sqrt (pf.l2_distance_squared center) - radius

/-- `plane(n, thickness)` from signed_distance_fields.rs:
`let d = pf.dot(&n); d * d - thickness`. -/
def plane (n : Point3f) (thickness : ℝ) : Point3i → ℝ := fun p =>
  let pf := toPoint3f p
  let d := pf.dot n
  d * d - thickness

/-- `cube(c, r)` from signed_distance_fields.rs:
`max_dim = |diff.x|.max(|diff.y|).max(|diff.z|); max_dim - r`. -/
def cube (c : Point3f) (r : ℝ) : Point3i → ℝ := fun p =>
  let pf := toPoint3f p
  let diff := pf.sub c
  let max_dim := max (max |diff.x| |diff.y|) |diff.z|
  max_dim - r

/-- `torus(t)` from signed_distance_fields.rs:
`q = (pf.xz().norm() - t.x, pf.y); q.norm() - t.y`. -/
def torus (t : Point2f) : Point3i → ℝ := fun p =>
  let pf := toPoint3f p
  let q : Point2f := ⟨pf.xz.norm - t.x, pf.y⟩
  q.norm - t.y

/-! ## Spec-side geometric notions, used to compare the code against the
spec's wording (Euclidean distance, Chebyshev distance, distance to the
plane through the origin normal to `n`). -/

/-- Spec-side definition: the Euclidean distance between two float points. -/
def euclideanDist (a b : Point3f) : ℝ :=
  Real.sqrt ((a.x - b.x) ^ 2 + (a.y - b.y) ^ 2 + (a.z - b.z) ^ 2)

/-- Spec-side definition: the Chebyshev (L∞) distance between two float points. -/
def chebyshevDist (a b : Point3f) : ℝ :=
  max (max |a.x - b.x| |a.y - b.y|) |a.z - b.z|

/-- Spec-side definition: the Euclidean norm of a 3-vector. -/
def norm3 (a : Point3f) : ℝ :=
  Real.sqrt (a.dot a)

/-- Spec-side definition: the Euclidean distance from lattice point `p` to
the plane through the origin with normal `n` (meaningful for `n ≠ 0`). -/
def distToMidplane (n : Point3f) (p : Point3i) : ℝ :=
  |(toPoint3f p).dot n| / norm3 n

end RealGeometry

/-! ## Claims C2–C5 -/

/-- Claim C2: for every lattice point `p`, center and radius, the sphere field
evaluates at `p` to the Euclidean distance from `p` (converted to float) to
the center, minus the radius; in particular it vanishes exactly when `p` lies
on the sphere of that radius about the center. -/
theorem c2_sphere_exact (center : Point3f) (radius : ℝ) (p : Point3i) :
    sphere center radius p = euclideanDist (toPoint3f p) center - radius ∧
    (sphere center radius p = 0 ↔ euclideanDist (toPoint3f p) center = radius) := by
  have harg : (toPoint3f p).l2_distance_squared center =
      ((toPoint3f p).x - center.x) ^ 2 + ((toPoint3f p).y - center.y) ^ 2 +
        ((toPoint3f p).z - center.z) ^ 2 := by
    simp only [Point3f.l2_distance_squared, Point3f.sub, Point3f.dot]
    ring
  have h1 : sphere center radius p = euclideanDist (toPoint3f p) center - radius := by
    simp only [sphere, euclideanDist, harg]
  refine ⟨h1, ?_⟩
  rw [h1]
  exact sub_eq_zero

/-- Claim C4: the cube field is at most zero at `p` exactly when `p`
(converted to float) lies within the L∞ (Chebyshev) ball of radius `r`
centered at `c`. -/
theorem c4_cube_chebyshev (c : Point3f) (r : ℝ) (p : Point3i) :
    cube c r p ≤ 0 ↔ chebyshevDist (toPoint3f p) c ≤ r := by
  have h : cube c r p = chebyshevDist (toPoint3f p) c - r := by
    simp only [cube, chebyshevDist, Point3f.sub]
  rw [h]
  exact sub_nonpos

/-- Claim C5: the torus field is invariant under any rotation of the
argument about the vertical axis through the origin: whenever two lattice
points have equal horizontal norms `‖(px, pz)‖` and equal `y` components,
the field takes the same value on them. -/
theorem c5_torus_rotation_invariant (t : Point2f) (p q : Point3i)
    (hxz : (toPoint3f p).xz.norm = (toPoint3f q).xz.norm)
    (hy : p.y = q.y) :
    torus t p = torus t q := by
  simp only [torus, toPoint3f] at *
  rw [hxz, hy]

/-- Witness for C5 at a concrete input: `p = (1,0,2)` and `q = (2,0,1)` are
rotations of one another about the vertical axis, and the torus field with
the example's parameters `(35, 10)` agrees on them. -/
theorem c5_torus_rotation_invariant_witness :
    torus ⟨35, 10⟩ ⟨1, 0, 2⟩ = torus ⟨35, 10⟩ ⟨2, 0, 1⟩ :=
  c5_torus_rotation_invariant ⟨35, 10⟩ ⟨1, 0, 2⟩ ⟨2, 0, 1⟩
    (by simp only [toPoint3f, Point3f.xz, Point2f.norm, Point2f.dot]; norm_num)
    rfl

/-- Counterexample for C3 as stated: with normal `n = (4,0,0)` (not a unit
vector) and thickness `16`, the lattice points `(1,0,0)` and `(-1,0,0)` lie in
the zero set of the plane field (the two planes are `x = 1` and `x = -1`),
yet the distance from `(1,0,0)` to the mid-plane through the origin is `1`,
not `√16 = 4`, and the gap between the two planes (the distance between those
two points, which face each other along the normal) is `2`, not `√16` — on
either reading the zero-set planes do NOT lie at distance `√thickness`
independently of the magnitude of `n`. -/
theorem c3_plane_counterexample :
    plane ⟨4, 0, 0⟩ 16 ⟨1, 0, 0⟩ = 0 ∧
    plane ⟨4, 0, 0⟩ 16 ⟨-1, 0, 0⟩ = 0 ∧
    distToMidplane ⟨4, 0, 0⟩ ⟨1, 0, 0⟩ ≠ Real.sqrt 16 ∧
    euclideanDist (toPoint3f ⟨1, 0, 0⟩) (toPoint3f ⟨-1, 0, 0⟩) ≠ Real.sqrt 16 := by
  have h16 : Real.sqrt (16 : ℝ) = 4 := by
    rw [show (16 : ℝ) = 4 ^ 2 by norm_num, Real.sqrt_sq (by norm_num : (0 : ℝ) ≤ 4)]
  have h4 : Real.sqrt (4 : ℝ) = 2 := by
    rw [show (4 : ℝ) = 2 ^ 2 by norm_num, Real.sqrt_sq (by norm_num : (0 : ℝ) ≤ 2)]
  refine ⟨?_, ?_, ?_, ?_⟩
  · simp only [plane, toPoint3f, Point3f.dot]
    norm_num
  · simp only [plane, toPoint3f, Point3f.dot]
    norm_num
  · have hval : distToMidplane ⟨4, 0, 0⟩ ⟨1, 0, 0⟩ = 1 := by
      simp only [distToMidplane, norm3, toPoint3f, Point3f.dot]
      push_cast
      rw [show ((1 : ℝ) * 4 + 0 * 0 + 0 * 0) = 4 by ring,
        show ((4 : ℝ) * 4 + 0 * 0 + 0 * 0) = 16 by ring, h16]
      norm_num
    rw [hval, h16]
    norm_num
  · have hval : euclideanDist (toPoint3f ⟨1, 0, 0⟩) (toPoint3f ⟨-1, 0, 0⟩) = 2 := by
      simp only [euclideanDist, toPoint3f]
      push_cast
      rw [show ((1 : ℝ) - -1) ^ 2 + ((0 : ℝ) - 0) ^ 2 + ((0 : ℝ) - 0) ^ 2 = 4 by ring, h4]
    rw [hval, h16]
    norm_num

/-- Claim C3 amended: the plane field evaluates at `p` to `(p·n)² − t`, and
for positive thickness `t` and nonzero normal `n` its zero set consists of the
two parallel planes `p·n = √t` and `p·n = −√t`, whose points lie at Euclidean
distance `√t / ‖n‖` — depending on the magnitude of `n`, not `√t` — from the
parallel plane through the origin (so the gap between the two planes is
`2√t / ‖n‖`). -/
theorem c3_plane_amended (n : Point3f) (t : ℝ) (p : Point3i)
    (ht : 0 < t) (_hn : norm3 n ≠ 0) :
    plane n t p = (toPoint3f p).dot n * (toPoint3f p).dot n - t ∧
    (plane n t p = 0 ↔
      (toPoint3f p).dot n = Real.sqrt t ∨ (toPoint3f p).dot n = -Real.sqrt t) ∧
    (plane n t p = 0 → distToMidplane n p = Real.sqrt t / norm3 n) := by
  have h1 : plane n t p = (toPoint3f p).dot n * (toPoint3f p).dot n - t := rfl
  have key : plane n t p = 0 ↔ |(toPoint3f p).dot n| = Real.sqrt t := by
    rw [h1, sub_eq_zero]
    constructor
    · intro h
      rw [← h]
      exact (Real.sqrt_mul_self_eq_abs _).symm
    · intro h
      rw [← abs_mul_abs_self, h, Real.mul_self_sqrt ht.le]
  refine ⟨h1, key.trans (abs_eq (Real.sqrt_nonneg t)), fun h0 => ?_⟩
  have habs := key.mp h0
  simp only [distToMidplane]
  rw [habs]

/-- Witness for the amended C3 at the concrete input `n = (4,0,0)`, `t = 16`,
`p = (1,0,0)`, with both hypotheses discharged there. -/
theorem c3_plane_amended_witness :
    (0 : ℝ) < 16 ∧ norm3 ⟨4, 0, 0⟩ ≠ 0 ∧
    (plane ⟨4, 0, 0⟩ 16 ⟨1, 0, 0⟩ =
        (toPoint3f ⟨1, 0, 0⟩).dot ⟨4, 0, 0⟩ * (toPoint3f ⟨1, 0, 0⟩).dot ⟨4, 0, 0⟩ - 16 ∧
      (plane ⟨4, 0, 0⟩ 16 ⟨1, 0, 0⟩ = 0 ↔
        (toPoint3f ⟨1, 0, 0⟩).dot ⟨4, 0, 0⟩ = Real.sqrt 16 ∨
          (toPoint3f ⟨1, 0, 0⟩).dot ⟨4, 0, 0⟩ = -Real.sqrt 16) ∧
      (plane ⟨4, 0, 0⟩ 16 ⟨1, 0, 0⟩ = 0 →
        distToMidplane ⟨4, 0, 0⟩ ⟨1, 0, 0⟩ = Real.sqrt 16 / norm3 ⟨4, 0, 0⟩)) :=
  have hn : norm3 ⟨4, 0, 0⟩ ≠ 0 := by
    have hpos : (0 : ℝ) < Point3f.dot ⟨4, 0, 0⟩ ⟨4, 0, 0⟩ := by
      simp only [Point3f.dot]
      norm_num
    exact (Real.sqrt_pos.mpr hpos).ne'
  ⟨by norm_num, hn, c3_plane_amended ⟨4, 0, 0⟩ 16 ⟨1, 0, 0⟩ (by norm_num) hn⟩

/-! ## Integer extents (2D)

The extent operations live in `building_blocks_core` (code of this repository
that is not under `src/`), so they are modelled from the spec (§3 Sampling
Extent, §4.2 Chunk Extent Policy). -/

structure Extent2i where
  minimum : Point2i
  shape : Point2i
deriving DecidableEq

/-- Modelled from the spec: `Extent2i::from_min_and_shape` of
`building_blocks_core` (not under `src/`) — an axis-aligned integer box given
by its min corner and its shape/size. -/
def Extent2i.from_min_and_shape (minimum shape : Point2i) : Extent2i :=
  ⟨minimum, shape⟩

/-- Modelled from the spec: the exclusive max corner of an extent,
`minimum + shape` componentwise (`least_upper_bound` in
`building_blocks_core`, not under `src/`). -/
def Extent2i.least_upper_bound (e : Extent2i) : Point2i :=
  ⟨e.minimum.x + e.shape.x, e.minimum.y + e.shape.y⟩

/-- Modelled from the spec: `padded` of `building_blocks_core` (not under
`src/`) grows the box by `n` on every face — min corner moves out by `n`,
shape grows by `2n` per axis. -/
def Extent2i.padded (e : Extent2i) (n : ℤ) : Extent2i :=
  ⟨⟨e.minimum.x - n, e.minimum.y - n⟩, ⟨e.shape.x + 2 * n, e.shape.y + 2 * n⟩⟩

/-- Modelled from the spec: `add_to_shape` of `building_blocks_core` (not
under `src/`) grows the max corner by a fixed amount, leaving the min corner
in place. -/
def Extent2i.add_to_shape (e : Extent2i) (s : Point2i) : Extent2i :=
  ⟨e.minimum, ⟨e.shape.x + s.x, e.shape.y + s.y⟩⟩

/-- Modelled from the spec: `intersection` of `building_blocks_core` (not
under `src/`) clips to bounds — min corner is the componentwise max of the
min corners, max corner the componentwise min of the max corners. -/
def Extent2i.intersection (a b : Extent2i) : Extent2i :=
  let mn : Point2i := ⟨max a.minimum.x b.minimum.x, max a.minimum.y b.minimum.y⟩
  let lb : Point2i := ⟨min a.least_upper_bound.x b.least_upper_bound.x,
                       min a.least_upper_bound.y b.least_upper_bound.y⟩
  ⟨mn, ⟨lb.x - mn.x, lb.y - mn.y⟩⟩

/-- A lattice point lies in an extent when `minimum ≤ p < least_upper_bound`
componentwise. -/
def Extent2i.containsPoint (e : Extent2i) (p : Point2i) : Prop :=
  e.minimum.x ≤ p.x ∧ e.minimum.y ≤ p.y ∧
  p.x < e.least_upper_bound.x ∧ p.y < e.least_upper_bound.y

instance (e : Extent2i) (p : Point2i) : Decidable (e.containsPoint p) := by
  unfold Extent2i.containsPoint
  exact inferInstance

/-- Extent containment: `b` contains `a` when `a`'s box lies inside `b`'s box
(min corner at least `b`'s, max corner at most `b`'s). -/
def Extent2i.containsExtent (b a : Extent2i) : Prop :=
  b.minimum.x ≤ a.minimum.x ∧ b.minimum.y ≤ a.minimum.y ∧
  a.least_upper_bound.x ≤ b.least_upper_bound.x ∧
  a.least_upper_bound.y ≤ b.least_upper_bound.y

instance (b a : Extent2i) : Decidable (b.containsExtent a) := by
  unfold Extent2i.containsExtent
  exact inferInstance

/-- The heightfield sampling domain of `generate_chunk_meshes_from_height_map`
(mesh_generator.rs line 187): min `(-50,-50)`, shape `(100,100)`. -/
def sample_extent2 : Extent2i :=
  Extent2i.from_min_and_shape ⟨-50, -50⟩ ⟨100, 100⟩

/-- The heightfield chunk shape (mesh_generator.rs line 188). -/
def chunk_shape2 : Point2i := ⟨16, 16⟩

/-- Modelled from the spec: `extent_for_chunk_at_key` of
`building_blocks_storage` (not under `src/`) — a chunk is identified by a key
derived from its minimum corner and has the fixed chunk shape. -/
def extent_for_chunk_at_key (key : Point2i) : Extent2i :=
  Extent2i.from_min_and_shape key chunk_shape2

/-- The padded chunk extent computed by `generate_chunk_meshes_from_height_map`
(mesh_generator.rs lines 208–213): pad by 1, add `(1,1)` to the shape, then
intersect with the sampling domain. -/
def padded_chunk_extent_hm (key : Point2i) : Extent2i :=
  (((extent_for_chunk_at_key key).padded 1).add_to_shape ⟨1, 1⟩).intersection
    sample_extent2

/-- Claim C6: for every chunk key, the heightfield driver samples the chunk's
native extent padded by 1 on every face (min corner `key − 1`), extended by 1
more on the max corner along each axis (exclusive max corner `key + 16+1+1`),
then intersected with the sampling domain; the result is always contained in
the sampling domain. -/
theorem c6_heightfield_extent_policy (key : Point2i) :
    (((extent_for_chunk_at_key key).padded 1).add_to_shape ⟨1, 1⟩).minimum =
      ⟨key.x - 1, key.y - 1⟩ ∧
    (((extent_for_chunk_at_key key).padded 1).add_to_shape ⟨1, 1⟩).least_upper_bound =
      ⟨key.x + 18, key.y + 18⟩ ∧
    padded_chunk_extent_hm key =
      (((extent_for_chunk_at_key key).padded 1).add_to_shape ⟨1, 1⟩).intersection
        sample_extent2 ∧
    ∀ p : Point2i, (padded_chunk_extent_hm key).containsPoint p →
      sample_extent2.containsPoint p := by
  refine ⟨rfl, ?_, rfl, ?_⟩
  · simp only [extent_for_chunk_at_key, Extent2i.from_min_and_shape, chunk_shape2,
      Extent2i.padded, Extent2i.add_to_shape, Extent2i.least_upper_bound,
      Point2i.mk.injEq]
    omega
  · intro p hp
    simp only [padded_chunk_extent_hm, Extent2i.intersection, Extent2i.containsPoint,
      Extent2i.least_upper_bound, sample_extent2, Extent2i.from_min_and_shape] at hp ⊢
    omega

/-- Witness for C6 at the concrete chunk key `(0,0)` and point `(0,0)`. -/
theorem c6_heightfield_extent_policy_witness :
    (padded_chunk_extent_hm ⟨0, 0⟩).containsPoint ⟨0, 0⟩ ∧
    sample_extent2.containsPoint ⟨0, 0⟩ :=
  ⟨by decide, (c6_heightfield_extent_policy ⟨0, 0⟩).2.2.2 ⟨0, 0⟩ (by decide)⟩

/-- Claim C7: intersecting a padded extent with a domain that already
contains it is the identity — padding then clipping to such a domain returns
the padded extent unchanged. -/
theorem c7_pad_then_clip_identity (e b : Extent2i)
    (h : b.containsExtent (e.padded 1)) :
    (e.padded 1).intersection b = e.padded 1 := by
  rcases hA : e.padded 1 with ⟨⟨a0, a1⟩, ⟨s0, s1⟩⟩
  rcases b with ⟨⟨b0, b1⟩, ⟨t0, t1⟩⟩
  rw [hA] at h
  simp only [Extent2i.containsExtent, Extent2i.least_upper_bound] at h
  simp only [Extent2i.intersection, Extent2i.least_upper_bound,
    Extent2i.mk.injEq, Point2i.mk.injEq]
  omega

/-- Witness for C7 at concrete extents: the chunk extent with min `(0,0)`
and shape `(4,4)`, padded by 1, inside the domain with min `(-2,-2)` and
shape `(10,10)`. -/
theorem c7_pad_then_clip_identity_witness :
    Extent2i.containsExtent ⟨⟨-2, -2⟩, ⟨10, 10⟩⟩
      ((Extent2i.mk ⟨0, 0⟩ ⟨4, 4⟩).padded 1) ∧
    ((Extent2i.mk ⟨0, 0⟩ ⟨4, 4⟩).padded 1).intersection ⟨⟨-2, -2⟩, ⟨10, 10⟩⟩ =
      (Extent2i.mk ⟨0, 0⟩ ⟨4, 4⟩).padded 1 :=
  ⟨by decide, c7_pad_then_clip_identity ⟨⟨0, 0⟩, ⟨4, 4⟩⟩ ⟨⟨-2, -2⟩, ⟨10, 10⟩⟩ (by decide)⟩

/-! ## Mesh generator system (mesh_generator.rs)

The entity/rendering collaborator (`Commands`, `Assets<Mesh>`) is modelled by
an explicit `World`: a fresh-entity counter plus the list of live entities.
The iso-surface algorithms (`surface_nets`, `triangulate_height_map`, from
`building_blocks_mesh`, not under `src/`) are external collaborators; each
driver is parameterized by the index list their extraction produces per chunk
key, which is all the drivers inspect. The reusable mesh buffers are
represented through those per-chunk index lists. -/

inductive Sdf
  | Cube
  | Plane
  | Sphere
  | Torus
deriving DecidableEq

inductive HeightMap
  | Wave
deriving DecidableEq

inductive Shape
  | sdf (s : Sdf)
  | heightMap (h : HeightMap)
deriving DecidableEq

/-- `NUM_SHAPES` (mesh_generator.rs line 71). -/
def NUM_SHAPES : ℤ := 5

/-- `choose_shape` (mesh_generator.rs lines 73–82); the
`panic!("bad shape index")` arm is modelled as `none`. -/
def choose_shape (index : ℤ) : Option Shape :=
  if index = 0 then some (Shape.sdf Sdf.Cube)
  else if index = 1 then some (Shape.sdf Sdf.Plane)
  else if index = 2 then some (Shape.sdf Sdf.Sphere)
  else if index = 3 then some (Shape.sdf Sdf.Torus)
  else if index = 4 then some (Shape.heightMap HeightMap.Wave)
  else none

/-- `MeshGeneratorState` (mesh_generator.rs lines 11–18): the selected shape
index and the live mesh-entity handles. The two reusable mesh buffers carry
no state the drivers inspect beyond the per-chunk index lists, which the
drivers receive as a parameter. -/
structure MeshGeneratorState where
  current_shape_index : ℤ
  chunk_mesh_entities : List ℕ
deriving DecidableEq

/-- The external entity world: a fresh-handle counter and the live entities. -/
structure World where
  nextEntity : ℕ
  live : List ℕ
deriving DecidableEq

/-- `commands.despawn(entity)`: remove the entity from the live list. -/
def despawn (w : World) (e : ℕ) : World :=
  { w with live := w.live.filter (fun x => x != e) }

/-- `create_mesh_entity` (mesh_generator.rs lines 236–261): spawn a fresh
entity and return its handle. -/
def create_mesh_entity (w : World) : ℕ × World :=
  (w.nextEntity, ⟨w.nextEntity + 1, w.live ++ [w.nextEntity]⟩)

/-- One iteration of the per-chunk loop shared by both drivers
(mesh_generator.rs lines 156–176 and 205–233): extract the chunk's mesh; if
its index list is empty, `continue` (no entity, no handle, no error signal);
otherwise create a mesh entity and push its handle. -/
def stepChunk {κ : Type} (meshFor : κ → List ℕ)
    (sw : MeshGeneratorState × World) (k : κ) : MeshGeneratorState × World :=
  if (meshFor k).isEmpty then sw
  else
    let e := (create_mesh_entity sw.2).1
    let w := (create_mesh_entity sw.2).2
    ({ sw.1 with chunk_mesh_entities := sw.1.chunk_mesh_entities ++ [e] }, w)

/-- `generate_chunk_meshes_from_sdf` (mesh_generator.rs lines 130–177):
fold the per-chunk loop over the 3D chunk keys. `sdfX s k` is the index list
that `surface_nets` produces for chunk `k` of shape `s` (extraction algorithm
and chunked storage are external collaborators). -/
def generate_chunk_meshes_from_sdf (sdfX : Sdf → Point3i → List ℕ) (s : Sdf)
    (keys : List Point3i) (st : MeshGeneratorState) (w : World) :
    MeshGeneratorState × World :=
  keys.foldl (stepChunk (sdfX s)) (st, w)

/-- `generate_chunk_meshes_from_height_map` (mesh_generator.rs lines
179–234): fold the per-chunk loop over the 2D chunk keys. `hmX h k` is the
index list that `triangulate_height_map` produces for chunk `k`. -/
def generate_chunk_meshes_from_height_map (hmX : HeightMap → Point2i → List ℕ)
    (h : HeightMap) (keys : List Point2i) (st : MeshGeneratorState) (w : World) :
    MeshGeneratorState × World :=
  keys.foldl (stepChunk (hmX h)) (st, w)

/-- The keyboard handling of `mesh_generator_system` (mesh_generator.rs lines
94–101): Left decrements, else Right increments, modulo `NUM_SHAPES` with
Euclidean remainder (`rem_euclid`). -/
def updateIndex (left right : Bool) (i : ℤ) : ℤ :=
  if left then (i - 1).emod NUM_SHAPES
  else if right then (i + 1).emod NUM_SHAPES
  else i

/-- `mesh_generator_system` (mesh_generator.rs lines 87–128): update the
shape index from the input, and if a new shape was requested or no chunk-mesh
entities are live, despawn every recorded handle, clear the handle list, and
regenerate with the driver matching the chosen shape. `none` models the
`panic!` of `choose_shape`. -/
def mesh_generator_system (left right : Bool)
    (sdfX : Sdf → Point3i → List ℕ) (hmX : HeightMap → Point2i → List ℕ)
    (keys3 : List Point3i) (keys2 : List Point2i)
    (st : MeshGeneratorState) (w : World) :
    Option (MeshGeneratorState × World) :=
  let st1 : MeshGeneratorState :=
    { st with current_shape_index := updateIndex left right st.current_shape_index }
  let new_shape_requested := left || right
  if new_shape_requested || st1.chunk_mesh_entities.isEmpty then
    let w1 := st1.chunk_mesh_entities.foldl despawn w
    let st2 := { st1 with chunk_mesh_entities := [] }
    match choose_shape st2.current_shape_index with
    | some (Shape.sdf s) =>
        some (generate_chunk_meshes_from_sdf sdfX s keys3 st2 w1)
    | some (Shape.heightMap h) =>
        some (generate_chunk_meshes_from_height_map hmX h keys2 st2 w1)
    | none => none
  else
    some (st1, w)

/-- Despawning a list of entities keeps the fresh-handle counter and removes
exactly those entities from the live list. -/
theorem foldl_despawn_spec (es : List ℕ) (w : World) :
    (es.foldl despawn w).nextEntity = w.nextEntity ∧
    ∀ x, x ∈ (es.foldl despawn w).live ↔ x ∈ w.live ∧ x ∉ es := by
  induction es generalizing w with
  | nil => simp
  | cons e rest ih =>
    simp only [List.foldl_cons]
    refine ⟨(ih (despawn w e)).1, fun x => ?_⟩
    rw [(ih (despawn w e)).2 x]
    simp only [despawn, List.mem_filter, bne_iff_ne, ne_eq, List.mem_cons]
    tauto

/-- Closed form of the per-chunk loop: it keeps the shape index, appends the
block of freshly spawned handles (one per chunk with a non-empty index list)
to the recorded handles, advances the fresh-handle counter by that count, and
appends the same handles to the live list. -/
theorem foldl_stepChunk_spec {κ : Type} (meshFor : κ → List ℕ) (keys : List κ)
    (st : MeshGeneratorState) (w : World) :
    (keys.foldl (stepChunk meshFor) (st, w)).1.current_shape_index =
      st.current_shape_index ∧
    (keys.foldl (stepChunk meshFor) (st, w)).1.chunk_mesh_entities =
      st.chunk_mesh_entities ++
        List.range' w.nextEntity
          ((keys.filter (fun k => !(meshFor k).isEmpty)).length) ∧
    (keys.foldl (stepChunk meshFor) (st, w)).2.nextEntity =
      w.nextEntity + (keys.filter (fun k => !(meshFor k).isEmpty)).length ∧
    (keys.foldl (stepChunk meshFor) (st, w)).2.live =
      w.live ++
        List.range' w.nextEntity
          ((keys.filter (fun k => !(meshFor k).isEmpty)).length) := by
  induction keys generalizing st w with
  | nil => simp
  | cons k rest ih =>
    by_cases hk : (meshFor k).isEmpty
    · have hstep : stepChunk meshFor (st, w) k = (st, w) := by
        simp [stepChunk, hk]
      have hfil : (k :: rest).filter (fun k => !(meshFor k).isEmpty) =
          rest.filter (fun k => !(meshFor k).isEmpty) := by
        simp [List.filter_cons, hk]
      simp only [List.foldl_cons, hstep, hfil]
      exact ih st w
    · have hstep : stepChunk meshFor (st, w) k =
          ({ st with chunk_mesh_entities := st.chunk_mesh_entities ++ [w.nextEntity] },
            ⟨w.nextEntity + 1, w.live ++ [w.nextEntity]⟩) := by
        simp [stepChunk, hk, create_mesh_entity]
      have hfil : (k :: rest).filter (fun k => !(meshFor k).isEmpty) =
          k :: rest.filter (fun k => !(meshFor k).isEmpty) := by
        simp [List.filter_cons, hk]
      obtain ⟨ih1, ih2, ih3, ih4⟩ :=
        ih { st with chunk_mesh_entities := st.chunk_mesh_entities ++ [w.nextEntity] }
          ⟨w.nextEntity + 1, w.live ++ [w.nextEntity]⟩
      dsimp only at ih1 ih2 ih3 ih4
      simp only [List.foldl_cons, hstep, hfil, List.length_cons]
      refine ⟨ih1, ?_, ?_, ?_⟩
      · rw [ih2]
        simp only [List.range'_succ]
        rw [List.append_assoc, List.singleton_append]
      · rw [ih3]
        omega
      · rw [ih4]
        simp only [List.range'_succ]
        rw [List.append_assoc, List.singleton_append]

/-- Core of a regeneration: despawning the old handles and then running the
per-chunk loop from an empty handle list leaves no old handle live or
recorded, and records exactly a contiguous block of fresh handles. -/
theorem regen_core {κ : Type} (f : κ → List ℕ) (keys : List κ)
    (oldEntities : List ℕ) (idx : ℤ) (w : World)
    (hwf : ∀ e ∈ oldEntities, e < w.nextEntity) :
    (∀ e ∈ oldEntities,
      e ∉ (keys.foldl (stepChunk f) (⟨idx, []⟩, oldEntities.foldl despawn w)).2.live ∧
      e ∉ (keys.foldl (stepChunk f)
            (⟨idx, []⟩, oldEntities.foldl despawn w)).1.chunk_mesh_entities) ∧
    (∃ m, (keys.foldl (stepChunk f)
            (⟨idx, []⟩, oldEntities.foldl despawn w)).1.chunk_mesh_entities =
        List.range' w.nextEntity m) ∧
    (∀ e ∈ (keys.foldl (stepChunk f)
            (⟨idx, []⟩, oldEntities.foldl despawn w)).1.chunk_mesh_entities,
      w.nextEntity ≤ e ∧
      e ∈ (keys.foldl (stepChunk f) (⟨idx, []⟩, oldEntities.foldl despawn w)).2.live) := by
  obtain ⟨hd1, hd2⟩ := foldl_despawn_spec oldEntities w
  obtain ⟨-, hs2, -, hs4⟩ :=
    foldl_stepChunk_spec f keys ⟨idx, []⟩ (oldEntities.foldl despawn w)
  dsimp only at hs2
  rw [hd1] at hs2 hs4
  refine ⟨fun e he => ⟨?_, ?_⟩, ⟨_, by rw [hs2, List.nil_append]⟩, fun e he => ?_⟩
  · rw [hs4]
    intro hmem
    rcases List.mem_append.mp hmem with hl | hr
    · exact ((hd2 e).mp hl).2 he
    · exact absurd (List.mem_range'_1.mp hr).1 (by have := hwf e he; omega)
  · rw [hs2, List.nil_append]
    intro hmem
    exact absurd (List.mem_range'_1.mp hmem).1 (by have := hwf e he; omega)
  · rw [hs2, List.nil_append] at he
    exact ⟨(List.mem_range'_1.mp he).1, by rw [hs4]; exact List.mem_append_right _ he⟩

/-- Claim C8: for every chunk whose extraction yields an empty index list,
the per-chunk loop body shared by both drivers creates no mesh entity and
records no handle, proceeding silently (the step is total, with no error or
log channel); a handle (the next fresh entity) is created and recorded only
when the index list is non-empty. Both drivers are folds of this step. -/
theorem c8_empty_mesh_skip {κ : Type} (meshFor : κ → List ℕ)
    (sw : MeshGeneratorState × World) (k : κ) :
    ((stepChunk meshFor sw k).1.chunk_mesh_entities =
      sw.1.chunk_mesh_entities ++
        (if (meshFor k).isEmpty then [] else [sw.2.nextEntity]) ∧
    (stepChunk meshFor sw k).2.live =
      sw.2.live ++ (if (meshFor k).isEmpty then [] else [sw.2.nextEntity]) ∧
    (stepChunk meshFor sw k).2.nextEntity =
      sw.2.nextEntity + (if (meshFor k).isEmpty then 0 else 1) ∧
    (stepChunk meshFor sw k).1.current_shape_index =
      sw.1.current_shape_index) ∧
    (∀ (sdfX : Sdf → Point3i → List ℕ) s keys st w,
      generate_chunk_meshes_from_sdf sdfX s keys st w =
        keys.foldl (stepChunk (sdfX s)) (st, w)) ∧
    (∀ (hmX : HeightMap → Point2i → List ℕ) h keys st w,
      generate_chunk_meshes_from_height_map hmX h keys st w =
        keys.foldl (stepChunk (hmX h)) (st, w)) := by
  refine ⟨?_, fun _ _ _ _ _ => rfl, fun _ _ _ _ _ => rfl⟩
  by_cases hk : (meshFor k).isEmpty <;>
    simp [stepChunk, hk, create_mesh_entity]

/-- Claim C9: starting from any shape index in `[0, NUM_SHAPES)`, the
left/right update — Euclidean remainder modulo `NUM_SHAPES` — lands again in
`[0, NUM_SHAPES)` (decrementing from 0 wraps to `NUM_SHAPES − 1`), so
`choose_shape` never reaches its panic arm from the update system. -/
theorem c9_shape_index_safety (i : ℤ) (left right : Bool)
    (h0 : 0 ≤ i) (h5 : i < NUM_SHAPES) :
    (0 ≤ updateIndex left right i ∧ updateIndex left right i < NUM_SHAPES) ∧
    (choose_shape (updateIndex left right i)).isSome = true ∧
    updateIndex true false 0 = NUM_SHAPES - 1 := by
  have hrange : 0 ≤ updateIndex left right i ∧ updateIndex left right i < NUM_SHAPES := by
    cases left with
    | true =>
      simp only [updateIndex, if_true]
      exact ⟨Int.emod_nonneg _ (by norm_num [NUM_SHAPES]),
        Int.emod_lt_of_pos _ (by norm_num [NUM_SHAPES])⟩
    | false =>
      cases right with
      | true =>
        simp only [updateIndex, Bool.false_eq_true, if_false, if_true]
        exact ⟨Int.emod_nonneg _ (by norm_num [NUM_SHAPES]),
          Int.emod_lt_of_pos _ (by norm_num [NUM_SHAPES])⟩
      | false =>
        simpa [updateIndex] using ⟨h0, h5⟩
  refine ⟨hrange, ?_, by decide⟩
  have hcases : updateIndex left right i = 0 ∨ updateIndex left right i = 1 ∨
      updateIndex left right i = 2 ∨ updateIndex left right i = 3 ∨
      updateIndex left right i = 4 := by
    have h1 := hrange.1
    have h2 := hrange.2
    simp only [NUM_SHAPES] at h2
    omega
  rcases hcases with h | h | h | h | h <;> rw [h] <;> rfl

/-- Witness for C9 at the concrete input `i = 0` with a Left press: the
index wraps to `NUM_SHAPES − 1 = 4` and stays in range. -/
theorem c9_shape_index_safety_witness :
    ((0 : ℤ) ≤ 0 ∧ (0 : ℤ) < NUM_SHAPES) ∧
    ((0 ≤ updateIndex true false 0 ∧ updateIndex true false 0 < NUM_SHAPES) ∧
      (choose_shape (updateIndex true false 0)).isSome = true ∧
      updateIndex true false 0 = NUM_SHAPES - 1) :=
  ⟨⟨le_refl 0, by decide⟩, c9_shape_index_safety 0 true false (by decide) (by decide)⟩

/-- Claim C10: with no shape-change request, the system regenerates exactly
when the live handle list is empty (using the currently selected shape
index, with the driver chosen by `choose_shape`), and otherwise leaves the
generator state and the world unchanged. -/
theorem c10_regenerate_when_empty
    (sdfX : Sdf → Point3i → List ℕ) (hmX : HeightMap → Point2i → List ℕ)
    (keys3 : List Point3i) (keys2 : List Point2i)
    (st : MeshGeneratorState) (w : World) :
    mesh_generator_system false false sdfX hmX keys3 keys2 st w =
      if st.chunk_mesh_entities.isEmpty then
        match choose_shape st.current_shape_index with
        | some (Shape.sdf s) =>
            some (generate_chunk_meshes_from_sdf sdfX s keys3 st w)
        | some (Shape.heightMap h) =>
            some (generate_chunk_meshes_from_height_map hmX h keys2 st w)
        | none => none
      else some (st, w) := by
  cases hE : st.chunk_mesh_entities with
  | nil =>
    have hst : ({ st with chunk_mesh_entities := ([] : List ℕ) } : MeshGeneratorState) = st := by
      cases st
      simp only at hE
      rw [hE]
    simp [mesh_generator_system, updateIndex, hE, hst]
  | cons e es =>
    have hst : ({ st with chunk_mesh_entities := e :: es } : MeshGeneratorState) = st := by
      cases st
      simp only at hE
      rw [hE]
    simp [mesh_generator_system, updateIndex, hE, hst]

/-- Claim C1: whenever a regeneration is triggered (a key press or an empty
handle list), every handle recorded by the previous generation is despawned
and absent from the new handle list, and the new state records exactly a
contiguous block of handles freshly spawned by this regeneration — no
accumulation of earlier generations. -/
theorem c1_regeneration_discards_previous_handles (left right : Bool)
    (sdfX : Sdf → Point3i → List ℕ) (hmX : HeightMap → Point2i → List ℕ)
    (keys3 : List Point3i) (keys2 : List Point2i)
    (st : MeshGeneratorState) (w : World) (result : MeshGeneratorState × World)
    (hwf : ∀ e ∈ st.chunk_mesh_entities, e < w.nextEntity)
    (htrig : left = true ∨ right = true ∨ st.chunk_mesh_entities = [])
    (hrun : mesh_generator_system left right sdfX hmX keys3 keys2 st w = some result) :
    (∀ e ∈ st.chunk_mesh_entities,
      e ∉ result.2.live ∧ e ∉ result.1.chunk_mesh_entities) ∧
    (∃ m, result.1.chunk_mesh_entities = List.range' w.nextEntity m) ∧
    (∀ e ∈ result.1.chunk_mesh_entities,
      w.nextEntity ≤ e ∧ e ∈ result.2.live) := by
  have hcond : (left || right || st.chunk_mesh_entities.isEmpty) = true := by
    rcases htrig with h | h | h <;> simp [h]
  simp only [mesh_generator_system] at hrun
  rw [hcond] at hrun
  simp only [if_true] at hrun
  rcases hcs : choose_shape (updateIndex left right st.current_shape_index) with - | sh
  · rw [hcs] at hrun
    exact absurd hrun (by simp)
  · rcases sh with s | h <;> rw [hcs] at hrun <;>
      simp only [generate_chunk_meshes_from_sdf, generate_chunk_meshes_from_height_map,
        Option.some.injEq] at hrun <;> rw [← hrun]
    · exact regen_core (sdfX s) keys3 st.chunk_mesh_entities
        (updateIndex left right st.current_shape_index) w hwf
    · exact regen_core (hmX h) keys2 st.chunk_mesh_entities
        (updateIndex left right st.current_shape_index) w hwf

/-- Witness for C1 at a concrete input: a Right press from the initial state
with no live handles; the regeneration runs driver `Plane` over no chunks,
so the new state records exactly the (empty) block of fresh handles. -/
theorem c1_regeneration_discards_previous_handles_witness :
    (∀ e ∈ (⟨0, []⟩ : MeshGeneratorState).chunk_mesh_entities,
      e ∉ ((⟨1, []⟩, ⟨0, []⟩) : MeshGeneratorState × World).2.live ∧
      e ∉ ((⟨1, []⟩, ⟨0, []⟩) : MeshGeneratorState × World).1.chunk_mesh_entities) ∧
    (∃ m, ((⟨1, []⟩, ⟨0, []⟩) : MeshGeneratorState × World).1.chunk_mesh_entities =
        List.range' (⟨0, []⟩ : World).nextEntity m) ∧
    (∀ e ∈ ((⟨1, []⟩, ⟨0, []⟩) : MeshGeneratorState × World).1.chunk_mesh_entities,
      (⟨0, []⟩ : World).nextEntity ≤ e ∧
      e ∈ ((⟨1, []⟩, ⟨0, []⟩) : MeshGeneratorState × World).2.live) :=
  c1_regeneration_discards_previous_handles false true
    (fun _ _ => []) (fun _ _ => []) [] [] ⟨0, []⟩ ⟨0, []⟩ (⟨1, []⟩, ⟨0, []⟩)
    (by simp) (Or.inr (Or.inl rfl)) rfl
